import Mathlib

/-!
Shallow embedding of the rtadp supervisor runtime (Supervisor.cpp and
Worker1.cpp).  Queues are lists with the front at the head; the dynamic
JSON values of nlohmann::json are modelled by the inductive `J`; each
supervisor command is a pure transformer of the supervisor state that
also records, in order, every assignment to the `status` field together
with a snapshot of the managers at that moment.  External collaborators
(the transport, the filesystem, json::parse, the avro decoder and the
concurrently running workers) enter as explicit function parameters.
-/

/-- Dynamic JSON values, the model of nlohmann::json.  Numbers are
modelled as integers (the wall-clock `time` field, a C++ double holding
`time(nullptr)` seconds, is carried as an integer number of seconds). -/
inductive J where
  | null : J
  | num (n : Int) : J
  | str (s : String) : J
  | obj (fields : List (String × J)) : J
deriving Repr

/-- Key lookup in a JSON object field list. -/
def lookupKey : List (String × J) → String → Option J
  | [], _ => none
  | (k, v) :: fs, k0 => if k = k0 then some v else lookupKey fs k0

/-- Replace the value at a key, or append the key if absent
(nlohmann operator[] insertion). -/
def updateKey : List (String × J) → String → J → List (String × J)
  | [], k0, v0 => [(k0, v0)]
  | (k, v) :: fs, k0, v0 =>
      if k = k0 then (k0, v0) :: fs else (k, v) :: updateKey fs k0 v0

/-- Read a value at a key path, the model of chained operator[] reads. -/
def jget : J → List String → Option J
  | j, [] => some j
  | J.obj fs, k :: ks =>
      match lookupKey fs k with
      | some v => jget v ks
      | none => none
  | _, _ :: _ => none

/-- Write a value at a key path, the model of chained operator[]
assignment: missing intermediate objects are created, a non-object is
overwritten by an object. -/
def jset : J → List String → J → J
  | _, [], v0 => v0
  | j, k :: ks, v0 =>
      let fs := match j with
        | J.obj fs => fs
        | _ => []
      J.obj (updateKey fs k (jset ((lookupKey fs k).getD J.null) ks v0))

/-- The model of json::get of a std::string: succeeds exactly on JSON
strings, anything else throws. -/
def getString : J → Option String
  | J.str s => some s
  | _ => none

/-- One WorkerManager as the supervisor observes it: the four queues
(front of the list = front of the queue), the two mirrored flags, and
the result-channel configuration.  `configs` is the log of configuration
envelopes forwarded by configworkers.

Modelled from the spec: the WorkerManager class itself is not among the
sources, only its call sites are; its queue accessors, `set_processdata`,
`set_stopdata`, `clean_queue` and `configworkers` follow the spec's
WorkerManager contract. -/
structure Manager where
  lowQueue : List J
  highQueue : List J
  resLowQueue : List J
  resHighQueue : List J
  processdata : Nat
  stopdataM : Bool
  result_socket_type : String
  result_dataflow_type : String
  result_lp_socket : String
  result_hp_socket : String
  configs : List J
deriving Repr

/-- `manager->set_processdata(v)`. -/
def set_processdata (v : Nat) (m : Manager) : Manager :=
  { m with processdata := v }

/-- `manager->set_stopdata(v)`. -/
def set_stopdata (v : Bool) (m : Manager) : Manager :=
  { m with stopdataM := v }

/-- `manager->clean_queue()`: clears all four queues. -/
def clean_queue (m : Manager) : Manager :=
  { m with lowQueue := [], highQueue := [], resLowQueue := [], resHighQueue := [] }

/-- `manager->configworkers(command)`: forwards the configuration
envelope to the workers; modelled as appending it to the log. -/
def configworkers (cmd : J) (m : Manager) : Manager :=
  { m with configs := m.configs ++ [cmd] }

/-- All four queues of a manager are empty. -/
def queuesEmpty (m : Manager) : Bool :=
  m.lowQueue.isEmpty && m.highQueue.isEmpty &&
    m.resLowQueue.isEmpty && m.resHighQueue.isEmpty

/-- The supervisor state visible to the command handler: its name, the
`status` string, the two master flags and the managers. -/
structure SupState where
  name : String
  status : String
  continueall : Bool
  stopdata : Bool
  managers : List Manager
deriving Repr

/-- Events recorded while a command executes: every assignment to
`status` (with the managers as they are at that moment), the warning
log of a forced cleaned shutdown, and the per-manager heartbeat of
`getstatus`. -/
inductive TraceEv where
  | status (st : String) (mgrs : List Manager) : TraceEv
  | warn : TraceEv
  | heartbeat (target : String) : TraceEv
deriving Repr

/-- `Supervisor::command_stopdata`. -/
def command_stopdata (s : SupState) : SupState :=
  { s with stopdata := true, managers := s.managers.map (set_stopdata true) }

/-- `Supervisor::command_startdata`. -/
def command_startdata (s : SupState) : SupState :=
  { s with stopdata := false, managers := s.managers.map (set_stopdata false) }

/-- `Supervisor::command_startprocessing`. -/
def command_startprocessing (s : SupState) : SupState × List TraceEv :=
  let s1 := { s with status := "Processing" }
  ({ s1 with managers := s1.managers.map (set_processdata 1) },
   [TraceEv.status "Processing" s1.managers])

/-- `Supervisor::command_stopprocessing`. -/
def command_stopprocessing (s : SupState) : SupState × List TraceEv :=
  let s1 := { s with status := "Waiting" }
  ({ s1 with managers := s1.managers.map (set_processdata 0) },
   [TraceEv.status "Waiting" s1.managers])

/-- `Supervisor::command_stop`: stopdata then stopprocessing. -/
def command_stop (s : SupState) : SupState × List TraceEv :=
  command_stopprocessing (command_stopdata s)

/-- `Supervisor::command_start`: startprocessing then startdata. -/
def command_start (s : SupState) : SupState × List TraceEv :=
  let p := command_startprocessing s
  (command_startdata p.1, p.2)

/-- `Supervisor::stop_all(fast)`: command_stop, stop every manager
(thread termination, no effect on the modelled fields), then clear
`continueall`. -/
def stop_all (_fast : Bool) (s : SupState) : SupState × List TraceEv :=
  let p := command_stop s
  ({ p.1 with continueall := false }, p.2)

/-- `Supervisor::command_shutdown`: set status to Shutdown, then
stop_all(false). -/
def command_shutdown (s : SupState) : SupState × List TraceEv :=
  let s1 := { s with status := "Shutdown" }
  let p := stop_all false s1
  (p.1, TraceEv.status "Shutdown" s.managers :: p.2)

/-- `Supervisor::command_reset`. -/
def command_reset (s : SupState) : SupState × List TraceEv :=
  if s.status = "Processing" ∨ s.status = "Waiting" then
    let p := command_stop s
    let s2 := { p.1 with managers := p.1.managers.map clean_queue }
    ({ s2 with status := "Waiting" },
     p.2 ++ [TraceEv.status "Waiting" s2.managers])
  else (s, [])

/-- Both input queues of the manager at index `i` are empty (an index
out of range reads as empty, i.e. there is no manager to wait for). -/
def inputEmptyAt (i : Nat) (s : SupState) : Bool :=
  match s.managers.get? i with
  | some m => m.lowQueue.isEmpty && m.highQueue.isEmpty
  | none => true

/-- Both result queues of the manager at index `i` are empty. -/
def resultEmptyAt (i : Nat) (s : SupState) : Bool :=
  match s.managers.get? i with
  | some m => m.resLowQueue.isEmpty && m.resHighQueue.isEmpty
  | none => true

/-- A `while (not p) sleep(200ms)` poll loop.  `env` is one tick of the
concurrently running workers and result dispatcher acting on the shared
state during the sleep; `fuel` bounds the number of polls (the C++ loop
is unbounded, so exhausted fuel returns none = the loop has not yet
terminated). -/
def waitUntil (env : SupState → SupState) (p : SupState → Bool) :
    Nat → SupState → Option SupState
  | 0, s => if p s then some s else none
  | n + 1, s => if p s then some s else waitUntil env p n (env s)

/-- The manager loop of command_cleanedshutdown: for each manager index,
first poll-wait until its two input queues are empty, then until its two
result queues are empty. -/
def drainList (env : SupState → SupState) (fuel : Nat) :
    List Nat → SupState → Option SupState
  | [], s => some s
  | i :: rest, s =>
      match waitUntil env (inputEmptyAt i) fuel s with
      | none => none
      | some s1 =>
          match waitUntil env (resultEmptyAt i) fuel s1 with
          | none => none
          | some s2 => drainList env fuel rest s2

/-- `Supervisor::command_cleanedshutdown`.  From `Processing`: go to
`EndingProcessing`, stop ingress (command_stopdata), drain every
manager, then set `Shutdown` and stop_all(false).  Otherwise: warn and
force the shutdown. -/
def command_cleanedshutdown (env : SupState → SupState) (fuel : Nat)
    (s : SupState) : Option (SupState × List TraceEv) :=
  if s.status = "Processing" then
    let s1 := { s with status := "EndingProcessing" }
    let s2 := command_stopdata s1
    match drainList env fuel (List.range s2.managers.length) s2 with
    | none => none
    | some s3 =>
        let s4 := { s3 with status := "Shutdown" }
        let p := stop_all false s4
        some (p.1, TraceEv.status "EndingProcessing" s.managers ::
                   TraceEv.status "Shutdown" s3.managers :: p.2)
  else
    let s4 := { s with status := "Shutdown" }
    let p := stop_all false s4
    some (p.1, TraceEv.warn :: TraceEv.status "Shutdown" s.managers :: p.2)

/-- A command envelope as process_command reads it: the four header
fields it extracts, plus the whole envelope (forwarded to configworkers
on type 3). -/
structure Cmd where
  ctype : Int
  subtype : String
  pidtarget : String
  pidsource : String
  envelope : J

/-- `Supervisor::process_command`.  `env` and `fuel` are only consumed
by the cleanedshutdown poll loop; every other path is total. -/
def process_command (env : SupState → SupState) (fuel : Nat)
    (s : SupState) (cmd : Cmd) : Option (SupState × List TraceEv) :=
  if cmd.ctype = 0 then
    if cmd.pidtarget = s.name ∨ cmd.pidtarget = "all" ∨ cmd.pidtarget = "*" then
      if cmd.subtype = "shutdown" then some (command_shutdown s)
      else if cmd.subtype = "cleanedshutdown" then
        command_cleanedshutdown env fuel s
      else if cmd.subtype = "getstatus" then
        some (s, s.managers.map (fun _ => TraceEv.heartbeat cmd.pidsource))
      else if cmd.subtype = "start" then some (command_start s)
      else if cmd.subtype = "stop" then some (command_stop s)
      else if cmd.subtype = "startprocessing" then
        some (command_startprocessing s)
      else if cmd.subtype = "stopprocessing" then
        some (command_stopprocessing s)
      else if cmd.subtype = "reset" then some (command_reset s)
      else if cmd.subtype = "stopdata" then some (command_stopdata s, [])
      else if cmd.subtype = "startdata" then some (command_startdata s, [])
      else some (s, [])
    else some (s, [])
  else if cmd.ctype = 3 then
    some ({ s with managers := s.managers.map (configworkers cmd.envelope) }, [])
  else some (s, [])

/-- A frame sent on one of a manager's two result sockets, carrying the
drained item (channel 0 = LP, channel 1 = HP). -/
inductive SendEv where
  | lp (x : J) : SendEv
  | hp (x : J) : SendEv
deriving Repr

/-- The body of `Supervisor::send_result` after the item has been
popped: route it to the channel's socket honouring the `"none"`
sentinel and the result dataflow type; a json::get string failure is
logged and the item dropped.

Modelled from the spec: the queue class is not among the sources; its
`front`/`pop` throw `std::exception` on an empty queue (the spec's
exception-driven draining note), which the pattern match on the queue
list realises. -/
def routeResult (channel : Nat) (x : J) (m : Manager) : List SendEv :=
  if channel = 0 then
    if m.result_lp_socket = "none" then []
    else if m.result_dataflow_type = "string" ∨ m.result_dataflow_type = "filename" then
      match getString x with
      | some s => [SendEv.lp (J.str s)]
      | none => []
    else if m.result_dataflow_type = "binary" then [SendEv.lp x]
    else []
  else
    if m.result_hp_socket = "none" then []
    else if m.result_dataflow_type = "string" ∨ m.result_dataflow_type = "filename" then
      match getString x with
      | some s => [SendEv.hp (J.str s)]
      | none => []
    else if m.result_dataflow_type = "binary" then [SendEv.hp x]
    else []

/-- `Supervisor::send_result` for one manager: return at once if both
result queues are empty; otherwise pop the HP front (falling back to
the LP front when the HP pop throws) and route it. -/
def send_result (m : Manager) : Manager × List SendEv :=
  if m.resLowQueue.length = 0 ∧ m.resHighQueue.length = 0 then (m, [])
  else
    match m.resHighQueue with
    | x :: rest => ({ m with resHighQueue := rest }, routeResult 1 x m)
    | [] =>
        match m.resLowQueue with
        | x :: rest => ({ m with resLowQueue := rest }, routeResult 0 x m)
        | [] => (m, [])

/-- Push one item at the back of the LP (hp = false) or HP (hp = true)
input queue of a manager. -/
def pushInput (hp : Bool) (x : J) (m : Manager) : Manager :=
  if hp then { m with highQueue := m.highQueue ++ [x] }
  else { m with lowQueue := m.lowQueue ++ [x] }

/-- json::parse of the received frame, repeated per manager inside the
fan-out loop of listen_for_lp_data / listen_for_hp_data; a parse
failure throws out of the listener. -/
def pushAllData (hp : Bool) (parse : String → Option J) (frame : String) :
    List Manager → Option (List Manager)
  | [] => some []
  | m :: ms =>
      match parse frame with
      | none => none
      | some x => (pushAllData hp parse frame ms).map (pushInput hp x m :: ·)

/-- One iteration of `Supervisor::listen_for_lp_data` (hp = false) or
`listen_for_hp_data` (hp = true), entered with `continueall` true.
`frame` is the message the transport would deliver; the returned flag
records whether a transport receive was performed; none models the
uncaught json::parse exception. -/
def listen_data_step (hp : Bool) (parse : String → Option J)
    (s : SupState) (frame : String) : Option (SupState × Bool) :=
  if s.stopdata then some (s, false)
  else
    match pushAllData hp parse frame s.managers with
    | none => none
    | some ms => some ({ s with managers := ms }, true)

/-- One iteration of `Supervisor::listen_for_lp_string` (hp = false) or
`listen_for_hp_string` (hp = true): the frame bytes are pushed as a raw
string into every manager's input queue. -/
def listen_string_step (hp : Bool) (s : SupState) (frame : String) :
    Option (SupState × Bool) :=
  if s.stopdata then some (s, false)
  else
    some ({ s with managers := s.managers.map (pushInput hp (J.str frame)) },
          true)

/-- The line loop of `Supervisor::open_file`: skip empty lines, parse
the rest in order; a parse failure throws out of the loop, is caught,
and the pairs accumulated so far are returned. -/
def openLoop (parse : String → Option J) :
    List String → List J × Nat → List J × Nat
  | [], acc => acc
  | line :: rest, (data, size) =>
      if line = "" then openLoop parse rest (data, size)
      else
        match parse line with
        | some x => openLoop parse rest (data ++ [x], size + 1)
        | none => (data, size)

/-- `Supervisor::open_file`.  `fs` is the filesystem: none means the
file cannot be opened (empty vector and size 0 are returned), some
gives the lines of the file. -/
def open_file (fs : String → Option (List String))
    (parse : String → Option J) (filename : String) : List J × Nat :=
  match fs filename with
  | none => ([], 0)
  | some lines => openLoop parse lines ([], 0)

/-- One iteration of `Supervisor::listen_for_lp_file` (hp = false) or
`listen_for_hp_file` (hp = true): receive a filename frame and, for
every manager, push the first `size` parsed records of the file. -/
def listen_file_step (hp : Bool) (fs : String → Option (List String))
    (parse : String → Option J) (s : SupState) (frame : String) :
    Option (SupState × Bool) :=
  if s.stopdata then some (s, false)
  else
    some ({ s with managers := s.managers.map (fun m =>
             ((open_file fs parse frame).1.take (open_file fs parse frame).2).foldl
               (fun acc x => pushInput hp x acc) m) },
          true)

/-- The spec-side reading of the amended filename-ingress claim: the
records of the maximal parsed run of non-empty lines before the first
parse failure. -/
def parsedUntilFailure (parse : String → Option J) : List String → List J
  | [] => []
  | line :: rest =>
      if line = "" then parsedUntilFailure parse rest
      else
        match parse line with
        | some x => x :: parsedUntilFailure parse rest
        | none => []

/-- `Worker1::processData`.  The avro pipeline of the binary branch is
external: `decode` returns none when the binary decoder throws, some
none when the decoded datum is not a record, and some (some name) for a
record with that `name` field.  A json::get string failure (the input
item is not a JSON string) likewise throws, giving none.  The result is
the nlohmann::json object the worker builds, with `priority` assigned
last on every path. -/
def processData (dataflowtype : String)
    (decode : String → Option (Option String))
    (data : J) (priority : Int) : Option J :=
  if dataflowtype = "binary" then
    match getString data with
    | none => none
    | some bin =>
        match decode bin with
        | none => none
        | some nameOpt =>
            let r := match nameOpt with
              | some nm => jset J.null ["name"] (J.str nm)
              | none => J.null
            some (jset r ["priority"] (J.num priority))
  else if dataflowtype = "filename" then
    match getString data with
    | none => none
    | some fn =>
        some (jset (jset J.null ["filename"] (J.str fn))
                   ["priority"] (J.num priority))
  else if dataflowtype = "string" then
    match getString data with
    | none => none
    | some sd =>
        some (jset (jset J.null ["data"] (J.str sd))
                   ["priority"] (J.num priority))
  else some (jset J.null ["priority"] (J.num priority))

/-- `Supervisor::send_info`: the envelope pushed on the monitoring
socket.  `t` is the wall-clock `time(nullptr)` value in seconds. -/
def send_info (t : Int) (level : Int) (message : String)
    (pidsource : String) (code : Int) (priority : String) : J :=
  jset (jset (jset (jset (jset (jset (jset (jset (jset J.null
    ["header", "type"] (J.num 5))
    ["header", "subtype"] (J.str "info"))
    ["header", "time"] (J.num t))
    ["header", "pidsource"] (J.str pidsource))
    ["header", "pidtarget"] (J.str "*"))
    ["header", "priority"] (J.str priority))
    ["body", "level"] (J.num level))
    ["body", "code"] (J.num code))
    ["body", "message"] (J.str message)

/-- `Supervisor::send_alarm`. -/
def send_alarm (t : Int) (level : Int) (message : String)
    (pidsource : String) (code : Int) (priority : String) : J :=
  jset (jset (jset (jset (jset (jset (jset (jset (jset J.null
    ["header", "type"] (J.num 2))
    ["header", "subtype"] (J.str "alarm"))
    ["header", "time"] (J.num t))
    ["header", "pidsource"] (J.str pidsource))
    ["header", "pidtarget"] (J.str "*"))
    ["header", "priority"] (J.str priority))
    ["body", "level"] (J.num level))
    ["body", "code"] (J.num code))
    ["body", "message"] (J.str message)

/-- `Supervisor::send_log`. -/
def send_log (t : Int) (level : Int) (message : String)
    (pidsource : String) (code : Int) (priority : String) : J :=
  jset (jset (jset (jset (jset (jset (jset (jset (jset J.null
    ["header", "type"] (J.num 4))
    ["header", "subtype"] (J.str "log"))
    ["header", "time"] (J.num t))
    ["header", "pidsource"] (J.str pidsource))
    ["header", "pidtarget"] (J.str "*"))
    ["header", "priority"] (J.str priority))
    ["body", "level"] (J.num level))
    ["body", "code"] (J.num code))
    ["body", "message"] (J.str message)

/-- The concurrent workers and result dispatcher may only remove items
from this manager's queues during a poll sleep (they never refill a
queue once ingress is stopped); the non-queue fields are theirs to
change or not, except that the configuration fields are not relevant to
draining, so only the queues are constrained. -/
def MgrDrains (m m2 : Manager) : Prop :=
  m2.lowQueue.Sublist m.lowQueue ∧ m2.highQueue.Sublist m.highQueue ∧
    m2.resLowQueue.Sublist m.resLowQueue ∧ m2.resHighQueue.Sublist m.resHighQueue

/-- Lift `MgrDrains` to the optional manager found at an index: the
environment neither creates nor destroys managers. -/
def OptMgrDrains : Option Manager → Option Manager → Prop
  | some m, some m2 => MgrDrains m m2
  | none, none => True
  | _, _ => False

/-- A drain-only environment: one tick of the concurrent activity only
ever removes items from the queues of each existing manager. -/
def EnvDrains (env : SupState → SupState) : Prop :=
  ∀ s i, OptMgrDrains (s.managers.get? i) ((env s).managers.get? i)

/-- The type-0 subtypes process_command recognises. -/
def recognisedSubtypes : List String :=
  ["shutdown", "cleanedshutdown", "getstatus", "start", "stop",
   "startprocessing", "stopprocessing", "reset", "stopdata", "startdata"]

/-- A manager with empty queues, used as a concrete test fixture. -/
def mgrEmpty : Manager :=
  { lowQueue := [], highQueue := [], resLowQueue := [], resHighQueue := [],
    processdata := 0, stopdataM := false, result_socket_type := "pushpull",
    result_dataflow_type := "string", result_lp_socket := "lp",
    result_hp_socket := "hp", configs := [] }

/-- `mgrEmpty` after ingress has been stopped. -/
def mgrEmptyStopped : Manager := { mgrEmpty with stopdataM := true }

/-- A manager with one item in each result queue. -/
def mgrBothResults : Manager :=
  { mgrEmpty with resHighQueue := [J.str "h"], resLowQueue := [J.str "l"] }

/-- A manager whose HP result endpoint is the `"none"` sentinel and
whose HP result queue holds one item. -/
def mgrNoneHp : Manager :=
  { mgrEmpty with result_hp_socket := "none", resHighQueue := [J.str "x"] }

/-- A supervisor named S1 in the Processing state with one idle
manager. -/
def supProcessing : SupState :=
  { name := "S1", status := "Processing", continueall := true,
    stopdata := false, managers := [mgrEmpty] }

/-- `supProcessing` with ingress stopped. -/
def supStopped : SupState := { supProcessing with stopdata := true }

/-- A shutdown command addressed to S1. -/
def cmdShutdown : Cmd :=
  { ctype := 0, subtype := "shutdown", pidtarget := "S1",
    pidsource := "cli", envelope := J.null }

/-- A type-0 command with an unrecognised subtype addressed to S1. -/
def cmdNonsense : Cmd :=
  { ctype := 0, subtype := "nonsense", pidtarget := "S1",
    pidsource := "cli", envelope := J.null }

/-- A test filesystem: the file "f" has a good line, a bad line and a
further line; every other name fails to open. -/
def fsW : String → Option (List String) :=
  fun fn => if fn = "f" then some ["ok", "bad", "tail"] else none

/-- A test parser that fails exactly on the line "bad". -/
def parseW : String → Option J :=
  fun line => if line = "bad" then none else some (J.str line)

/-- A test avro decoder (never consulted in string mode). -/
def decodeW : String → Option (Option String) := fun _ => some none

/-- The final state of a fuel-0 cleaned shutdown of `supProcessing`. -/
def outClean : SupState :=
  { name := "S1", status := "Waiting", continueall := false,
    stopdata := true, managers := [mgrEmptyStopped] }

/-- The status trace of that cleaned shutdown. -/
def trClean : List TraceEv :=
  [TraceEv.status "EndingProcessing" [mgrEmpty],
   TraceEv.status "Shutdown" [mgrEmptyStopped],
   TraceEv.status "Waiting" [mgrEmptyStopped]]

/-- The state of `supProcessing` after one filename-ingress iteration
has delivered the file "f": the line before the parse failure has been
pushed. -/
def supAfterFile : SupState :=
  { supProcessing with managers := [{ mgrEmpty with lowQueue := [J.str "ok"] }] }

theorem sublist_isEmpty {l1 l2 : List J} (h : l1.Sublist l2)
    (h2 : l2.isEmpty = true) : l1.isEmpty = true := by
  rw [List.isEmpty_iff] at *
  subst h2
  exact List.sublist_nil.mp h

theorem envDrains_get {env : SupState → SupState} (he : EnvDrains env)
    {s : SupState} {i : Nat} {m m2 : Manager}
    (hs : s.managers.get? i = some m)
    (hs2 : (env s).managers.get? i = some m2) : MgrDrains m m2 := by
  have hrel := he s i
  rw [hs, hs2] at hrel
  exact hrel

theorem envDrains_get_none {env : SupState → SupState} (he : EnvDrains env)
    {s : SupState} {i : Nat}
    (hs : s.managers.get? i = none) : (env s).managers.get? i = none := by
  have hrel := he s i
  rw [hs] at hrel
  cases hs2 : (env s).managers.get? i with
  | none => rfl
  | some m2 =>
      rw [hs2] at hrel
      exact absurd hrel (fun hf => hf)

theorem envDrains_get_some {env : SupState → SupState} (he : EnvDrains env)
    {s : SupState} {i : Nat} {m2 : Manager}
    (hs2 : (env s).managers.get? i = some m2) :
    ∃ m, s.managers.get? i = some m ∧ MgrDrains m m2 := by
  cases hs : s.managers.get? i with
  | none => rw [envDrains_get_none he hs] at hs2; exact absurd hs2 (by simp)
  | some m => exact ⟨m, rfl, envDrains_get he hs hs2⟩

theorem envDrains_inputEmptyAt {env : SupState → SupState}
    (he : EnvDrains env) {i : Nat} {s : SupState}
    (h : inputEmptyAt i s = true) : inputEmptyAt i (env s) = true := by
  unfold inputEmptyAt at h ⊢
  cases hs2 : (env s).managers.get? i with
  | none => rfl
  | some m2 =>
      obtain ⟨m, hs, hrel⟩ := envDrains_get_some he hs2
      rw [hs] at h
      have h2 : (m.lowQueue.isEmpty && m.highQueue.isEmpty) = true := h
      show (m2.lowQueue.isEmpty && m2.highQueue.isEmpty) = true
      rw [Bool.and_eq_true] at h2 ⊢
      exact ⟨sublist_isEmpty hrel.1 h2.1, sublist_isEmpty hrel.2.1 h2.2⟩

theorem envDrains_resultEmptyAt {env : SupState → SupState}
    (he : EnvDrains env) {i : Nat} {s : SupState}
    (h : resultEmptyAt i s = true) : resultEmptyAt i (env s) = true := by
  unfold resultEmptyAt at h ⊢
  cases hs2 : (env s).managers.get? i with
  | none => rfl
  | some m2 =>
      obtain ⟨m, hs, hrel⟩ := envDrains_get_some he hs2
      rw [hs] at h
      have h2 : (m.resLowQueue.isEmpty && m.resHighQueue.isEmpty) = true := h
      show (m2.resLowQueue.isEmpty && m2.resHighQueue.isEmpty) = true
      rw [Bool.and_eq_true] at h2 ⊢
      exact ⟨sublist_isEmpty hrel.2.2.1 h2.1, sublist_isEmpty hrel.2.2.2 h2.2⟩

theorem envDrains_length {env : SupState → SupState} (he : EnvDrains env)
    (s : SupState) : (env s).managers.length = s.managers.length := by
  apply Nat.le_antisymm
  · have h1 : (env s).managers.get? s.managers.length = none :=
      envDrains_get_none he (List.get?_eq_none.mpr (le_refl _))
    exact List.get?_eq_none.mp h1
  · cases hs : s.managers.get? (env s).managers.length with
    | none => exact List.get?_eq_none.mp hs
    | some m =>
        have h2 := he s (env s).managers.length
        rw [hs, List.get?_eq_none.mpr
              (le_refl (env s).managers.length)] at h2
        exact absurd h2 (fun hf => hf)

theorem waitUntil_holds {env : SupState → SupState} {p : SupState → Bool} :
    ∀ fuel s s1, waitUntil env p fuel s = some s1 → p s1 = true := by
  intro fuel
  induction fuel with
  | zero =>
      intro s s1 h
      unfold waitUntil at h
      by_cases hp : p s = true
      · rw [if_pos hp] at h; cases h; exact hp
      · rw [if_neg hp] at h; cases h
  | succ n ih =>
      intro s s1 h
      unfold waitUntil at h
      by_cases hp : p s = true
      · rw [if_pos hp] at h; cases h; exact hp
      · rw [if_neg hp] at h; exact ih (env s) s1 h

theorem waitUntil_preserves {env : SupState → SupState}
    {p : SupState → Bool} {Q : SupState → Prop}
    (hQ : ∀ u, Q u → Q (env u)) :
    ∀ fuel s s1, waitUntil env p fuel s = some s1 → Q s → Q s1 := by
  intro fuel
  induction fuel with
  | zero =>
      intro s s1 h hq
      unfold waitUntil at h
      by_cases hp : p s = true
      · rw [if_pos hp] at h; cases h; exact hq
      · rw [if_neg hp] at h; cases h
  | succ n ih =>
      intro s s1 h hq
      unfold waitUntil at h
      by_cases hp : p s = true
      · rw [if_pos hp] at h; cases h; exact hq
      · rw [if_neg hp] at h; exact ih (env s) s1 h (hQ s hq)

theorem drainList_inv {env : SupState → SupState} (he : EnvDrains env)
    (fuel : Nat) :
    ∀ idxs s s1, drainList env fuel idxs s = some s1 →
      (∀ i ∈ idxs, inputEmptyAt i s1 = true ∧ resultEmptyAt i s1 = true) ∧
      (∀ i, inputEmptyAt i s = true → inputEmptyAt i s1 = true) ∧
      (∀ i, resultEmptyAt i s = true → resultEmptyAt i s1 = true) ∧
      s1.managers.length = s.managers.length := by
  intro idxs
  induction idxs with
  | nil =>
      intro s s1 h
      cases h
      exact ⟨(by intro i hi; exact absurd hi (List.not_mem_nil i)),
             fun i h => h, fun i h => h, rfl⟩
  | cons j rest ih =>
      intro s s1 h
      cases hw1 : waitUntil env (inputEmptyAt j) fuel s with
      | none =>
          unfold drainList at h
          rw [hw1] at h
          exact absurd h (by simp)
      | some sa =>
          cases hw2 : waitUntil env (resultEmptyAt j) fuel sa with
          | none =>
              unfold drainList at h
              rw [hw1] at h
              have h2 : (match waitUntil env (resultEmptyAt j) fuel sa with
                  | none => none
                  | some s2 => drainList env fuel rest s2) = some s1 := h
              rw [hw2] at h2
              exact absurd h2 (by simp)
          | some sb =>
              unfold drainList at h
              rw [hw1] at h
              have h2 : (match waitUntil env (resultEmptyAt j) fuel sa with
                  | none => none
                  | some s2 => drainList env fuel rest s2) = some s1 := h
              rw [hw2] at h2
              have h3 : drainList env fuel rest sb = some s1 := h2
              obtain ⟨hmem, hpin, hpres, hlen⟩ := ih sb s1 h3
              have hin_sa : inputEmptyAt j sa = true :=
                waitUntil_holds fuel s sa hw1
              have hin_sb : inputEmptyAt j sb = true :=
                waitUntil_preserves (Q := fun u => inputEmptyAt j u = true)
                  (fun u hu => envDrains_inputEmptyAt he hu)
                  fuel sa sb hw2 hin_sa
              have hres_sb : resultEmptyAt j sb = true :=
                waitUntil_holds fuel sa sb hw2
              refine ⟨?_, ?_, ?_, ?_⟩
              · intro i hi
                rcases List.mem_cons.mp hi with hji | hirest
                · subst hji
                  exact ⟨hpin _ hin_sb, hpres _ hres_sb⟩
                · exact hmem i hirest
              · intro i hin
                have h1 : inputEmptyAt i sa = true :=
                  waitUntil_preserves (Q := fun u => inputEmptyAt i u = true)
                    (fun u hu => envDrains_inputEmptyAt he hu)
                    fuel s sa hw1 hin
                have h2 : inputEmptyAt i sb = true :=
                  waitUntil_preserves (Q := fun u => inputEmptyAt i u = true)
                    (fun u hu => envDrains_inputEmptyAt he hu)
                    fuel sa sb hw2 h1
                exact hpin i h2
              · intro i hres
                have h1 : resultEmptyAt i sa = true :=
                  waitUntil_preserves (Q := fun u => resultEmptyAt i u = true)
                    (fun u hu => envDrains_resultEmptyAt he hu)
                    fuel s sa hw1 hres
                have h2 : resultEmptyAt i sb = true :=
                  waitUntil_preserves (Q := fun u => resultEmptyAt i u = true)
                    (fun u hu => envDrains_resultEmptyAt he hu)
                    fuel sa sb hw2 h1
                exact hpres i h2
              · have la : sa.managers.length = s.managers.length :=
                  waitUntil_preserves
                    (Q := fun u => u.managers.length = s.managers.length)
                    (fun u hu => (envDrains_length he u).trans hu)
                    fuel s sa hw1 rfl
                have lb : sb.managers.length = s.managers.length :=
                  waitUntil_preserves
                    (Q := fun u => u.managers.length = s.managers.length)
                    (fun u hu => (envDrains_length he u).trans hu)
                    fuel sa sb hw2 la
                exact hlen.trans lb

theorem envDrains_id : EnvDrains id := by
  intro s i
  show OptMgrDrains (s.managers.get? i) (s.managers.get? i)
  cases hs : s.managers.get? i with
  | none => exact trivial
  | some m =>
      exact ⟨List.Sublist.refl _, List.Sublist.refl _,
             List.Sublist.refl _, List.Sublist.refl _⟩

/-- C2: if a cleanedshutdown command arrives while the state is
Processing, the supervisor first transitions to EndingProcessing, stops
ingress, and assigns Shutdown only at a moment when every queue of every
manager is empty (under a drain-only model of the concurrent workers and
dispatcher); if the state is not Processing it logs a warning and forces
the shutdown. -/
theorem cleanedshutdown_drains_before_shutdown
    (env : SupState → SupState) (fuel : Nat) (s out : SupState)
    (tr : List TraceEv) (he : EnvDrains env)
    (hrun : command_cleanedshutdown env fuel s = some (out, tr)) :
    (s.status = "Processing" →
      ∃ snap rest, tr = TraceEv.status "EndingProcessing" s.managers ::
          TraceEv.status "Shutdown" snap :: rest ∧
        (∀ m ∈ snap, queuesEmpty m = true) ∧
        out.stopdata = true ∧ out.continueall = false) ∧
    (s.status ≠ "Processing" →
      tr.head? = some TraceEv.warn ∧ out.continueall = false) := by
  constructor
  · intro hp
    simp only [command_cleanedshutdown] at hrun
    rw [if_pos hp] at hrun
    split at hrun
    · exact absurd hrun (by simp)
    · next s3 hd =>
        obtain ⟨hlist, hpin, hpres, hlen⟩ := drainList_inv he fuel _ _ _ hd
        injection hrun with hpair
        injection hpair with hout htr
        refine ⟨s3.managers,
          (stop_all false { s3 with status := "Shutdown" }).2, ?_, ?_, ?_, ?_⟩
        · exact htr.symm
        · intro m hm
          obtain ⟨n, hn⟩ := List.get?_of_mem hm
          have hlt : n < s3.managers.length := by
            by_contra hge
            rw [List.get?_eq_none.mpr (Nat.le_of_not_lt hge)] at hn
            cases hn
          rw [hlen] at hlt
          have hmem := hlist n (List.mem_range.mpr hlt)
          have h1 := hmem.1
          have h2 := hmem.2
          unfold inputEmptyAt at h1
          unfold resultEmptyAt at h2
          rw [hn] at h1 h2
          have h1b : (m.lowQueue.isEmpty && m.highQueue.isEmpty) = true := h1
          have h2b : (m.resLowQueue.isEmpty && m.resHighQueue.isEmpty) = true := h2
          unfold queuesEmpty
          rw [Bool.and_eq_true, Bool.and_eq_true, Bool.and_eq_true]
          rw [Bool.and_eq_true] at h1b h2b
          exact ⟨⟨h1b, h2b.1⟩, h2b.2⟩
        · rw [← hout]; rfl
        · rw [← hout]; rfl
  · intro hnp
    simp only [command_cleanedshutdown] at hrun
    rw [if_neg hnp] at hrun
    injection hrun with hpair
    injection hpair with hout htr
    constructor
    · rw [← htr]; rfl
    · rw [← hout]; rfl

theorem cleanedshutdown_drain_witness :
    ∃ snap rest, trClean = TraceEv.status "EndingProcessing" supProcessing.managers ::
        TraceEv.status "Shutdown" snap :: rest ∧
      (∀ m ∈ snap, queuesEmpty m = true) ∧
      outClean.stopdata = true ∧ outClean.continueall = false :=
  (cleanedshutdown_drains_before_shutdown id 0 supProcessing outClean trClean
      envDrains_id rfl).1 rfl

/-- C1: the claim says that after a shutdown command the state is
Shutdown and stays there.  Evaluating process_command on a shutdown
envelope addressed to the supervisor shows the final status is in fact
Waiting: command_shutdown assigns Shutdown but then stop_all invokes
command_stopprocessing, which overwrites the status with Waiting. -/
theorem shutdown_command_ends_in_waiting :
    (process_command id 0 supProcessing cmdShutdown).map
      (fun p => (p.1.status, p.1.continueall)) = some ("Waiting", false) := rfl

theorem openLoop_eq (parse : String → Option J) :
    ∀ lines data size, openLoop parse lines (data, size) =
      (data ++ parsedUntilFailure parse lines,
       size + (parsedUntilFailure parse lines).length) := by
  intro lines
  induction lines with
  | nil =>
      intro data size
      simp [openLoop, parsedUntilFailure]
  | cons line rest ih =>
      intro data size
      by_cases he : line = ""
      · simp [openLoop, parsedUntilFailure, he, ih]
      · cases hp : parse line with
        | none => simp [openLoop, parsedUntilFailure, he, hp]
        | some x =>
            simp only [openLoop, parsedUntilFailure, if_neg he, hp, ih]
            rw [Prod.mk.injEq]
            refine ⟨?_, ?_⟩
            · simp
            · simp [List.length_cons]
              omega

/-- C10: open_file always returns a pair whose second component equals
the length of the first (one entry per line the run parsed, in file
order), and an unopenable file yields the empty vector with size 0. -/
theorem open_file_size_matches (fs : String → Option (List String))
    (parse : String → Option J) (fn : String) :
    (open_file fs parse fn).2 = (open_file fs parse fn).1.length ∧
    (fs fn = none → open_file fs parse fn = ([], 0)) := by
  constructor
  · unfold open_file
    cases hf : fs fn with
    | none => rfl
    | some lines =>
        show (openLoop parse lines ([], 0)).2 =
          (openLoop parse lines ([], 0)).1.length
        rw [openLoop_eq]
        simp
  · intro h
    unfold open_file
    rw [h]

theorem open_file_size_witness :
    (open_file fsW parseW "g").2 = (open_file fsW parseW "g").1.length ∧
    open_file fsW parseW "g" = ([], 0) :=
  ⟨(open_file_size_matches fsW parseW "g").1,
   (open_file_size_matches fsW parseW "g").2 rfl⟩

theorem open_file_take (fs : String → Option (List String))
    (parse : String → Option J) (fn : String) :
    (open_file fs parse fn).1.take (open_file fs parse fn).2 =
      parsedUntilFailure parse ((fs fn).getD []) := by
  unfold open_file
  cases hf : fs fn with
  | none => simp [parsedUntilFailure]
  | some lines =>
      show List.take (openLoop parse lines ([], 0)).2
        (openLoop parse lines ([], 0)).1 =
        parsedUntilFailure parse ((some lines).getD [])
      rw [openLoop_eq]
      simp

/-- C3 counterexample: the file "f" opens, its first line parses and
its second line fails to parse, yet after one filename-ingress
iteration the manager input queue holds the item of the first line, so
the file is not abandoned as a whole. -/
theorem filename_parse_failure_pushes_prefix :
    (listen_file_step false fsW parseW supProcessing "f").map
      (fun p => (p.1.managers.map Manager.lowQueue, p.2))
      = some ([[J.str "ok"]], true) ∧
    parseW "bad" = none :=
  ⟨rfl, rfl⟩

/-- C3 amended: in filename ingress, when the file cannot be opened no
item is pushed; when a line fails to parse, exactly the records parsed
before the failure are pushed, in file order, and the rest of the file
is abandoned. -/
theorem filename_ingress_pushes_parsed_run
    (hp : Bool) (fs : String → Option (List String)) (parse : String → Option J)
    (s : SupState) (frame : String) (s1 : SupState) (rcv : Bool)
    (hsd : s.stopdata = false)
    (hrun : listen_file_step hp fs parse s frame = some (s1, rcv)) :
    rcv = true ∧
    s1.managers = s.managers.map (fun m =>
      (parsedUntilFailure parse ((fs frame).getD [])).foldl
        (fun acc x => pushInput hp x acc) m) ∧
    (fs frame = none → s1.managers = s.managers) := by
  unfold listen_file_step at hrun
  rw [hsd] at hrun
  simp only [Bool.false_eq_true, if_false] at hrun
  injection hrun with hpair
  injection hpair with hst hrcv
  refine ⟨hrcv.symm, ?_, ?_⟩
  · rw [← hst]
    simp [open_file_take]
  · intro hnone
    rw [← hst]
    simp [open_file_take, hnone, parsedUntilFailure]

theorem filename_parsed_run_witness :
    true = true ∧
    supAfterFile.managers = supProcessing.managers.map (fun m =>
      (parsedUntilFailure parseW ((fsW "f").getD [])).foldl
        (fun acc x => pushInput false x acc) m) ∧
    (fsW "f" = none → supAfterFile.managers = supProcessing.managers) :=
  filename_ingress_pushes_parsed_run false fsW parseW supProcessing "f"
    supAfterFile true rfl rfl

/-- C4: in each draining pass, a manager with a non-empty result queue
loses exactly one item, taken from the HP result queue whenever that
queue is non-empty and from the LP result queue otherwise; with both
result queues empty nothing is removed or sent. -/
theorem send_result_drains_hp_first (m : Manager) :
    (m.resHighQueue = [] → m.resLowQueue = [] → send_result m = (m, [])) ∧
    (∀ x rest, m.resHighQueue = x :: rest →
      (send_result m).1 = { m with resHighQueue := rest }) ∧
    (∀ x rest, m.resHighQueue = [] → m.resLowQueue = x :: rest →
      (send_result m).1 = { m with resLowQueue := rest }) := by
  refine ⟨?_, ?_, ?_⟩
  · intro h1 h2
    simp [send_result, h1, h2]
  · intro x rest h
    simp [send_result, h]
  · intro x rest h1 h2
    simp [send_result, h1, h2]

theorem send_result_hp_first_witness :
    mgrBothResults.resHighQueue = J.str "h" :: [] ∧
    (send_result mgrBothResults).1 =
      { mgrBothResults with resHighQueue := [] } :=
  ⟨rfl, (send_result_drains_hp_first mgrBothResults).2.1 (J.str "h") [] rfl⟩

/-- C6: when the drained item belongs to a class whose result endpoint
is the sentinel "none", the item is removed from the result queue and
no frame is sent on any socket. -/
theorem none_endpoint_discards_silently (m : Manager) (x : J) (rest : List J) :
    (m.result_hp_socket = "none" → m.resHighQueue = x :: rest →
      send_result m = ({ m with resHighQueue := rest }, [])) ∧
    (m.result_lp_socket = "none" → m.resHighQueue = [] →
      m.resLowQueue = x :: rest →
      send_result m = ({ m with resLowQueue := rest }, [])) := by
  constructor
  · intro hsock hq
    simp [send_result, hq, routeResult, hsock]
  · intro hsock hq1 hq2
    simp [send_result, hq1, hq2, routeResult, hsock]

theorem none_endpoint_witness :
    send_result mgrNoneHp = ({ mgrNoneHp with resHighQueue := [] }, []) :=
  (none_endpoint_discards_silently mgrNoneHp (J.str "x") []).1 rfl rfl

/-- C5: while stopdata is true, one iteration of any ingress listener
(binary, string or filename, LP or HP) performs no transport receive
and leaves the whole supervisor state, in particular every manager
input queue, unchanged, whatever frame the transport would deliver. -/
theorem stopdata_parks_ingress (hp : Bool) (parse : String → Option J)
    (fs : String → Option (List String)) (s : SupState) (frame : String)
    (h : s.stopdata = true) :
    listen_data_step hp parse s frame = some (s, false) ∧
    listen_string_step hp s frame = some (s, false) ∧
    listen_file_step hp fs parse s frame = some (s, false) := by
  refine ⟨?_, ?_, ?_⟩ <;>
    simp [listen_data_step, listen_string_step, listen_file_step, h]

theorem stopdata_parks_ingress_witness :
    listen_data_step false parseW supStopped "frame" = some (supStopped, false) ∧
    listen_string_step false supStopped "frame" = some (supStopped, false) ∧
    listen_file_step false fsW parseW supStopped "frame" =
      some (supStopped, false) :=
  stopdata_parks_ingress false parseW fsW supStopped "frame" rfl

/-- C7: process_command changes nothing unless the envelope is a type-0
command addressed to the supervisor (by name, "all" or "*") with a
recognised subtype, or a type-3 config envelope: any other envelope
leaves the supervisor state untouched and records no event. -/
theorem process_command_unknown_is_noop
    (env : SupState → SupState) (fuel : Nat) (s : SupState) (cmd : Cmd)
    (hnotcmd : ¬(cmd.ctype = 0 ∧
      (cmd.pidtarget = s.name ∨ cmd.pidtarget = "all" ∨ cmd.pidtarget = "*") ∧
      cmd.subtype ∈ recognisedSubtypes))
    (hnotcfg : cmd.ctype ≠ 3) :
    process_command env fuel s cmd = some (s, []) := by
  unfold process_command
  by_cases h0 : cmd.ctype = 0
  · rw [if_pos h0]
    by_cases htgt : cmd.pidtarget = s.name ∨ cmd.pidtarget = "all" ∨
        cmd.pidtarget = "*"
    · rw [if_pos htgt]
      have hs : cmd.subtype ∉ recognisedSubtypes :=
        fun hmem => hnotcmd ⟨h0, htgt, hmem⟩
      have n1 : ¬cmd.subtype = "shutdown" :=
        fun he => hs (by rw [he]; simp [recognisedSubtypes])
      have n2 : ¬cmd.subtype = "cleanedshutdown" :=
        fun he => hs (by rw [he]; simp [recognisedSubtypes])
      have n3 : ¬cmd.subtype = "getstatus" :=
        fun he => hs (by rw [he]; simp [recognisedSubtypes])
      have n4 : ¬cmd.subtype = "start" :=
        fun he => hs (by rw [he]; simp [recognisedSubtypes])
      have n5 : ¬cmd.subtype = "stop" :=
        fun he => hs (by rw [he]; simp [recognisedSubtypes])
      have n6 : ¬cmd.subtype = "startprocessing" :=
        fun he => hs (by rw [he]; simp [recognisedSubtypes])
      have n7 : ¬cmd.subtype = "stopprocessing" :=
        fun he => hs (by rw [he]; simp [recognisedSubtypes])
      have n8 : ¬cmd.subtype = "reset" :=
        fun he => hs (by rw [he]; simp [recognisedSubtypes])
      have n9 : ¬cmd.subtype = "stopdata" :=
        fun he => hs (by rw [he]; simp [recognisedSubtypes])
      have n10 : ¬cmd.subtype = "startdata" :=
        fun he => hs (by rw [he]; simp [recognisedSubtypes])
      rw [if_neg n1, if_neg n2, if_neg n3, if_neg n4, if_neg n5, if_neg n6,
          if_neg n7, if_neg n8, if_neg n9, if_neg n10]
    · rw [if_neg htgt]
  · rw [if_neg h0, if_neg hnotcfg]

theorem process_command_unknown_witness :
    process_command id 0 supProcessing cmdNonsense = some (supProcessing, []) :=
  process_command_unknown_is_noop id 0 supProcessing cmdNonsense
    (by decide) (by decide)

/-- C8: every monitoring emission built by send_info, send_alarm and
send_log is an envelope of header type 5, 2 and 4 respectively with the
matching subtype, pidtarget "*", the given pidsource and priority and
the wall-clock time, whose body carries exactly the given level, code
and message. -/
theorem monitoring_envelope_shapes (t level code : Int)
    (message pidsource priority : String) :
    jget (send_info t level message pidsource code priority)
        ["header", "type"] = some (J.num 5) ∧
    jget (send_info t level message pidsource code priority)
        ["header", "subtype"] = some (J.str "info") ∧
    jget (send_info t level message pidsource code priority)
        ["header", "time"] = some (J.num t) ∧
    jget (send_info t level message pidsource code priority)
        ["header", "pidsource"] = some (J.str pidsource) ∧
    jget (send_info t level message pidsource code priority)
        ["header", "pidtarget"] = some (J.str "*") ∧
    jget (send_info t level message pidsource code priority)
        ["header", "priority"] = some (J.str priority) ∧
    jget (send_info t level message pidsource code priority)
        ["body"] = some (J.obj [("level", J.num level), ("code", J.num code),
                                ("message", J.str message)]) ∧
    jget (send_alarm t level message pidsource code priority)
        ["header", "type"] = some (J.num 2) ∧
    jget (send_alarm t level message pidsource code priority)
        ["header", "subtype"] = some (J.str "alarm") ∧
    jget (send_alarm t level message pidsource code priority)
        ["header", "time"] = some (J.num t) ∧
    jget (send_alarm t level message pidsource code priority)
        ["header", "pidsource"] = some (J.str pidsource) ∧
    jget (send_alarm t level message pidsource code priority)
        ["header", "pidtarget"] = some (J.str "*") ∧
    jget (send_alarm t level message pidsource code priority)
        ["header", "priority"] = some (J.str priority) ∧
    jget (send_alarm t level message pidsource code priority)
        ["body"] = some (J.obj [("level", J.num level), ("code", J.num code),
                                ("message", J.str message)]) ∧
    jget (send_log t level message pidsource code priority)
        ["header", "type"] = some (J.num 4) ∧
    jget (send_log t level message pidsource code priority)
        ["header", "subtype"] = some (J.str "log") ∧
    jget (send_log t level message pidsource code priority)
        ["header", "time"] = some (J.num t) ∧
    jget (send_log t level message pidsource code priority)
        ["header", "pidsource"] = some (J.str pidsource) ∧
    jget (send_log t level message pidsource code priority)
        ["header", "pidtarget"] = some (J.str "*") ∧
    jget (send_log t level message pidsource code priority)
        ["header", "priority"] = some (J.str priority) ∧
    jget (send_log t level message pidsource code priority)
        ["body"] = some (J.obj [("level", J.num level), ("code", J.num code),
                                ("message", J.str message)]) := by
  refine ⟨?_, ?_, ?_, ?_, ?_, ?_, ?_, ?_, ?_, ?_, ?_, ?_, ?_, ?_, ?_, ?_,
          ?_, ?_, ?_, ?_, ?_⟩ <;>
    simp [send_info, send_alarm, send_log, jset, jget, updateKey, lookupKey]

/-- C9: whenever Worker1.processData returns a result, in any of the
three dataflow modes, the priority field of the result equals the
priority argument; in string mode the data field of the result echoes
the input string. -/
theorem processData_result_priority
    (decode : String → Option (Option String)) (data : J) (priority : Int)
    (mode : String) (r : J)
    (hmode : mode = "binary" ∨ mode = "filename" ∨ mode = "string")
    (hrun : processData mode decode data priority = some r) :
    jget r ["priority"] = some (J.num priority) ∧
    (mode = "string" → ∀ sd, data = J.str sd →
      jget r ["data"] = some (J.str sd)) := by
  rcases hmode with h | h | h <;> subst h <;> unfold processData at hrun
  · rw [if_pos rfl] at hrun
    cases hg : getString data with
    | none => rw [hg] at hrun; cases hrun
    | some bin =>
        rw [hg] at hrun
        have hrun2 : (match decode bin with
            | none => none
            | some nameOpt =>
              let r2 := match nameOpt with
                | some nm => jset J.null ["name"] (J.str nm)
                | none => J.null
              some (jset r2 ["priority"] (J.num priority))) = some r := hrun
        cases hd : decode bin with
        | none => rw [hd] at hrun2; cases hrun2
        | some nameOpt =>
            rw [hd] at hrun2
            cases nameOpt with
            | none =>
                injection hrun2 with hr
                refine ⟨?_, ?_⟩
                · rw [← hr]; simp [jset, jget, updateKey, lookupKey]
                · intro hc; exact absurd hc (by decide)
            | some nm =>
                injection hrun2 with hr
                refine ⟨?_, ?_⟩
                · rw [← hr]; simp [jset, jget, updateKey, lookupKey]
                · intro hc; exact absurd hc (by decide)
  · rw [if_neg (by decide), if_pos rfl] at hrun
    cases hg : getString data with
    | none => rw [hg] at hrun; cases hrun
    | some fn =>
        rw [hg] at hrun
        injection hrun with hr
        refine ⟨?_, ?_⟩
        · rw [← hr]; simp [jset, jget, updateKey, lookupKey]
        · intro hc; exact absurd hc (by decide)
  · rw [if_neg (by decide), if_neg (by decide), if_pos rfl] at hrun
    cases hg : getString data with
    | none => rw [hg] at hrun; cases hrun
    | some sd0 =>
        rw [hg] at hrun
        injection hrun with hr
        refine ⟨?_, ?_⟩
        · rw [← hr]; simp [jset, jget, updateKey, lookupKey]
        · intro _ sd hdata
          rw [hdata] at hg
          have hsd : sd = sd0 := by
            have hg2 : some sd = some sd0 := hg
            injection hg2
          subst hsd
          rw [← hr]
          simp [jset, jget, updateKey, lookupKey]

theorem processData_priority_witness :
    jget (J.obj [("data", J.str "hello"), ("priority", J.num 7)])
        ["priority"] = some (J.num 7) ∧
    ("string" = "string" → ∀ sd, J.str "hello" = J.str sd →
      jget (J.obj [("data", J.str "hello"), ("priority", J.num 7)])
          ["data"] = some (J.str sd)) :=
  processData_result_priority decodeW (J.str "hello") 7 "string"
    (J.obj [("data", J.str "hello"), ("priority", J.num 7)])
    (Or.inr (Or.inr rfl)) rfl
